import Mathlib

/-!
Verification development for the lobby parameter-streaming pipeline.

This file gives a shallow embedding of the stream-consumer side of the
repository: the Zustand store update functions and the WebSocket message
handler of useBackendSync, the frame-rate-independent interpolation loop of
Live2DViewer, the motion-playback effect of Live2DViewer, and the
connect / reconnect / send state machine of useBackendSync.

JavaScript objects holding parameter values are modelled as ordered
association lists of string keys and rational values; rationals stand in
for JS numbers.  Property assignment obj[k] = v is objSet (replace the
existing slot in place, else append), property read obj[k] is objGet
(first occurrence), and object spread like the expression
spread of a followed by spread of b is spreadMerge.  Asynchronous
WebSocket callbacks are modelled as an explicit event-step relation on a
session state that records every connection the hook ever created.
-/

namespace Lobby

/-- Obj models a JavaScript object mapping parameter names to numbers,
as an ordered association list, the way JS objects are ordered dictionaries. -/
abbrev Obj := List (String × ℚ)

/-- Property read obj[key]: first matching slot. -/
def objGet : Obj → String → Option ℚ
  | [], _ => none
  | (k, v) :: rest, key => if k = key then some v else objGet rest key

/-- Property write obj[key] = val: replace the existing slot in place,
else append a new slot, exactly as JS assignment behaves. -/
def objSet : Obj → String → ℚ → Obj
  | [], key, val => [(key, val)]
  | (k, v) :: rest, key, val =>
      if k = key then (k, val) :: rest else (k, v) :: objSet rest key val

/-- Object spread of b over a, as in the store update
set live2dParams to spread of state.live2dParams then spread of params
(part_004, setLive2DParams): later keys override, new keys append in order. -/
def spreadMerge (a b : Obj) : Obj :=
  b.foldl (fun acc kv => objSet acc kv.1 kv.2) a

/-- Value of the last occurrence of key in b, which is the value a spread
of b contributes for that key. -/
def lastGet (b : Obj) (key : String) : Option ℚ :=
  objGet b.reverse key

/-- The slice of the useLobbyStore state (part_004) that the WebSocket
message handler of useBackendSync (part_011) touches. -/
structure Store where
  connected : Bool
  live2dParams : Obj
  expression : String
  subtitleText : String
  backgroundSource : String
deriving DecidableEq

/-- Initial store values from part_004: defaults of live2dParams,
expression neutral, empty subtitle text, color background. -/
def initialStore : Store :=
  { connected := false
    live2dParams :=
      [("ParamMouthOpenY", 0), ("ParamEyeLOpen", 1), ("ParamEyeROpen", 1),
       ("ParamEyeBallX", 0), ("ParamEyeBallY", 0), ("ParamBodyAngleX", 0),
       ("ParamBodyAngleY", 0), ("ParamBreath", 0)]
    expression := "neutral"
    subtitleText := ""
    backgroundSource := "#1a1a2e" }

/-- setLive2DParams of part_004: merge the patch into live2dParams by spread. -/
def setLive2DParams (st : Store) (p : Obj) : Store :=
  { st with live2dParams := spreadMerge st.live2dParams p }

/-- setExpression of part_004: replace the expression field. -/
def setExpressionStore (st : Store) (e : String) : Store :=
  { st with expression := e }

/-- setSubtitleText of part_004: replace the current subtitle text. -/
def setSubtitleTextStore (st : Store) (t : String) : Store :=
  { st with subtitleText := t }

/-- setBackgroundSource of part_004: replace the background source. -/
def setBackgroundSourceStore (st : Store) (b : String) : Store :=
  { st with backgroundSource := b }

/-- Inbound messages of useBackendSync (part_011): one constructor per
known discriminator value of the type field, plus unknownType for any other
value, which the default branch of the switch handles. -/
inductive BackendMessage
  | parameters (data : Obj)
  | frame (timestampMs : Nat) (params : Obj) (expression : Option String)
      (motionName : Option String)
  | emotion (expression : String) (text : Option String)
  | motionMsg (motionName : String)
  | speaking (speakStatus : String)
  | statusMsg (subtitleText : Option String) (sceneBackground : Option String)
  | errorMsg (message : String)
  | unknownType
deriving DecidableEq

/-- JS truthiness of an optional string: absent and empty strings are falsy. -/
def strTruthy : Option String → Bool
  | none => false
  | some s => decide (s ≠ "")

/-- The switch body of handleMessage in useBackendSync (part_011, lines
356 to 414) for a successfully parsed message. -/
def handleParsed (m : BackendMessage) (st : Store) : Store :=
  match m with
  | .parameters data => setLive2DParams st data
  | .frame _ ps e _ =>
      let st1 := setLive2DParams st ps
      if strTruthy e then setExpressionStore st1 (e.getD "") else st1
  | .emotion e _ => setExpressionStore st e
  | .motionMsg _ => st
  | .speaking _ => st
  | .statusMsg sub bg =>
      let st1 := if strTruthy sub then setSubtitleTextStore st (sub.getD "") else st
      if strTruthy bg then setBackgroundSourceStore st1 (bg.getD "") else st1
  | .errorMsg _ => st
  | .unknownType => st

/-- handleMessage of useBackendSync: JSON.parse wrapped in try/catch.
A none input stands for an unparseable event payload, which the catch
branch absorbs, leaving the store untouched. -/
def handleMessage (m : Option BackendMessage) (st : Store) : Store :=
  match m with
  | none => st
  | some msg => handleParsed msg st

/-- Whether handleMessage writes a console line for the given input:
the catch branch logs a parse error, the default branch warns about an
unknown type, and the emotion, motion, speaking and error branches log. -/
def handleMessageLogs : Option BackendMessage → Bool
  | none => true
  | some m =>
      match m with
      | .parameters _ => false
      | .frame _ _ _ _ => false
      | .emotion _ _ => true
      | .motionMsg _ => true
      | .speaking _ => true
      | .statusMsg _ _ => false
      | .errorMsg _ => true
      | .unknownType => true

/-- Per-key body of the interpolation loop of Live2DViewer (lines 170 to
184): read the current value with the target as fallback, advance by
diff times t when the gap exceeds 0.001, else snap to the target. -/
def tickValue (cur : Option ℚ) (target t : ℚ) : ℚ :=
  let cv := cur.getD target
  let diff := target - cv
  if 1 / 1000 < |diff| then cv + diff * t else target

/-- One iteration of the forEach over the target keys in animationLoop:
updates the current object at this key and raises hasChanges when the gap
exceeded the epsilon. -/
def tickEntry (t : ℚ) (st : Obj × Bool) (kv : String × ℚ) : Obj × Bool :=
  let cv := (objGet st.1 kv.1).getD kv.2
  let diff := kv.2 - cv
  if 1 / 1000 < |diff| then (objSet st.1 kv.1 (cv + diff * t), true)
  else (objSet st.1 kv.1 kv.2, st.2)

/-- One pass of animationLoop in Live2DViewer (lines 147 to 193): compute
the frame-rate-independent factor t as the minimum of 1 and
smoothing times delta over 16.67, interpolate every target key, and apply
the whole current object to the model when hasChanges holds or the current
object has any key.  The third component is the object passed to
applyParams, or none when applyParams is not called. -/
def animationLoopTick (current target : Obj) (smoothing delta : ℚ) :
    Obj × Bool × Option Obj :=
  let t := min 1 (smoothing * (delta / (1667 / 100)))
  let r := target.foldl (tickEntry t) (current, false)
  let written := if r.2 || decide (0 < r.1.length) then some r.1 else none
  (r.1, r.2, written)

/-- Consumer-side state relevant to duplicate-frame application: the store
slice plus the interpolation target object of Live2DViewer. -/
structure ConsumerState where
  store : Store
  targetParams : Obj
deriving DecidableEq

/-- Initial consumer state: initial store, empty target object
(targetParamsRef starts as an empty object in Live2DViewer). -/
def initialConsumer : ConsumerState :=
  { store := initialStore, targetParams := [] }

/-- Processing one inbound message end to end on the consumer: the store
update of handleMessage, then the Live2DViewer effect that copies the
store params into targetParamsRef by spreading them into a fresh object
(line 357). -/
def applyFrameMsg (m : Option BackendMessage) (c : ConsumerState) : ConsumerState :=
  let st := handleMessage m c.store
  { store := st, targetParams := spreadMerge [] st.live2dParams }

/-- Result of the renderer motion call: the promise either resolves or
rejects.  The pixi renderer is external to the repository; per the spec
interface section its motion call eventually signals completion. -/
inductive MotionOutcome
  | resolved
  | rejected
deriving DecidableEq

/-- Observable outcome of the motion effect: whether the renderer motion
API was invoked, and whether the completion callback was invoked. -/
structure MotionEffectResult where
  dispatched : Bool
  completionInvoked : Bool
deriving DecidableEq

/-- The motion useEffect of Live2DViewer (lines 378 to 412): bail out when
the motion prop is falsy or no model is loaded; warn without callback when
the model lacks a motion function; otherwise call the motion API and
invoke onMotionComplete both on the resolve path and in the catch. -/
def motionEffect (motionProp : Option String) (modelLoaded : Bool)
    (motionApi : Option (String → MotionOutcome)) : MotionEffectResult :=
  if !(strTruthy motionProp) || !modelLoaded then
    { dispatched := false, completionInvoked := false }
  else
    match motionApi with
    | none => { dispatched := false, completionInvoked := false }
    | some f =>
        match f (motionProp.getD "") with
        | .resolved => { dispatched := true, completionInvoked := true }
        | .rejected => { dispatched := true, completionInvoked := true }

/-- Consumer-to-producer actions of useBackendSync.  get_status is the raw
object sent inside onopen; otherAction stands for the remaining variants
(camera, background, subtitle, audio, effects). -/
inductive Action
  | get_status
  | set_expression (e : String)
  | set_param (name : String) (value : ℚ)
  | play_motion (m : String)
  | analyze_text (t : String)
  | speak (t : String) (audioPath : String)
  | stop
  | otherAction
deriving DecidableEq

/-- WebSocket readyState values. -/
inductive ConnStatus
  | connecting
  | opened
  | closing
  | closed
deriving DecidableEq

/-- One WebSocket object created by connect, with the list of messages
sent on it in order. -/
structure Conn where
  status : ConnStatus
  sent : List Action
deriving DecidableEq

/-- Options of useBackendSync (part_011, lines 296 to 341). -/
structure SyncCfg where
  autoReconnect : Bool
  reconnectInterval : Nat
  maxReconnectAttempts : Nat
deriving DecidableEq

/-- Defaults of useBackendSync, which BackendProvider (part_006) also
passes explicitly: autoReconnect true, 3000 ms interval, 10 max attempts. -/
def defaultCfg : SyncCfg :=
  { autoReconnect := true, reconnectInterval := 3000, maxReconnectAttempts := 10 }

/-- Session state of one useBackendSync instance.  conns records every
WebSocket the hook ever constructed, in creation order; wsRef is the
mutable ref holding the index of the socket the hook currently points at;
reconnectTimeout is the pending retry timer with its delay; the attempt
counter and the connected flag mirror reconnectAttemptsRef and the store
flag. -/
structure SyncState where
  conns : List Conn
  wsRef : Option Nat
  reconnectTimeout : Option Nat
  reconnectAttempts : Nat
  connected : Bool
deriving DecidableEq

/-- The socket wsRef currently points at, if any. -/
def currentConn (s : SyncState) : Option Conn :=
  match s.wsRef with
  | some i => s.conns[i]?
  | none => none

/-- The guard wsRef.current?.readyState === WebSocket.OPEN used by both
connect and sendAction. -/
def currentIsOpen (s : SyncState) : Bool :=
  match currentConn s with
  | some c => c.status == .opened
  | none => false

/-- connect of useBackendSync (lines 417 to 462): return unchanged when the
current socket is already open, else construct a fresh WebSocket in the
connecting state and point wsRef at it. -/
def connect (s : SyncState) : SyncState :=
  if currentIsOpen s then s
  else { s with conns := s.conns ++ [{ status := .connecting, sent := [] }],
                wsRef := some s.conns.length }

/-- The onopen handler of socket i (lines 426 to 433): mark it open, set
the connected flag, reset the attempt counter, and send get_status on that
socket. -/
def onOpen (s : SyncState) (i : Nat) : SyncState :=
  match s.conns[i]? with
  | some c =>
      { s with
        conns := s.conns.set i
          { c with status := .opened, sent := c.sent ++ [.get_status] },
        connected := true,
        reconnectAttempts := 0 }
  | none => s

/-- The onclose handler of socket i (lines 437 to 451): mark it closed,
clear the connected flag, null out wsRef unconditionally, and when
autoReconnect holds and the attempt counter is below the maximum,
increment the counter and schedule a retry timer with the configured
interval. -/
def onClose (cfg : SyncCfg) (s : SyncState) (i : Nat) : SyncState :=
  match s.conns[i]? with
  | some c =>
      let s1 := { s with conns := s.conns.set i { c with status := .closed },
                         connected := false, wsRef := none }
      if cfg.autoReconnect = true ∧ s1.reconnectAttempts < cfg.maxReconnectAttempts then
        { s1 with reconnectAttempts := s1.reconnectAttempts + 1,
                  reconnectTimeout := some cfg.reconnectInterval }
      else s1
  | none => s

/-- sendAction of useBackendSync (lines 465 to 471): transmit on the
current socket only when its readyState is OPEN, otherwise warn and do
nothing. -/
def sendAction (a : Action) (s : SyncState) : SyncState :=
  match s.wsRef with
  | some i =>
      match s.conns[i]? with
      | some c =>
          if c.status = .opened then
            { s with conns := s.conns.set i { c with sent := c.sent ++ [a] } }
          else s
      | none => s
  | none => s

/-- The wsRef.current.close() call inside reconnect: move a connecting or
open socket to the closing state; its onclose handler fires later as a
separate event. -/
def closeCurrent (s : SyncState) : SyncState :=
  match s.wsRef with
  | some i =>
      match s.conns[i]? with
      | some c =>
          if c.status = .connecting ∨ c.status = .opened then
            { s with conns := s.conns.set i { c with status := .closing } }
          else s
      | none => s
  | none => s

/-- reconnect of useBackendSync (lines 501 to 510): clear any pending
retry timer, reset the attempt counter to 0, close the socket wsRef points
at, then call connect. -/
def reconnect (s : SyncState) : SyncState :=
  connect (closeCurrent { s with reconnectTimeout := none, reconnectAttempts := 0 })

/-- Events delivered to one useBackendSync session on the JS event loop:
socket i finishing its handshake, socket i closing or failing, the retry
timer firing, a manual reconnect call, and a sendAction call. -/
inductive Event
  | wsOpened (i : Nat)
  | wsClosed (i : Nat)
  | timerFired
  | manualReconnect
  | sendEvt (a : Action)
deriving DecidableEq

/-- One event step.  none means the event is not enabled in this state:
only a connecting socket can open, only a not-yet-closed socket can close,
and the timer can only fire while pending.  The timer callback is connect
with the timeout slot consumed. -/
def step (cfg : SyncCfg) (s : SyncState) : Event → Option SyncState
  | .wsOpened i =>
      match s.conns[i]? with
      | some c => if c.status = .connecting then some (onOpen s i) else none
      | none => none
  | .wsClosed i =>
      match s.conns[i]? with
      | some c => if c.status ≠ .closed then some (onClose cfg s i) else none
      | none => none
  | .timerFired =>
      match s.reconnectTimeout with
      | some _ => some (connect { s with reconnectTimeout := none })
      | none => none
  | .manualReconnect => some (reconnect s)
  | .sendEvt a => some (sendAction a s)

/-- Mount state: the useEffect on mount calls connect on an empty session. -/
def initState : SyncState :=
  connect { conns := [], wsRef := none, reconnectTimeout := none,
            reconnectAttempts := 0, connected := false }

/-- Run a list of events from a given state, failing when an event is not
enabled. -/
def runFrom (cfg : SyncCfg) : SyncState → List Event → Option SyncState
  | s, [] => some s
  | s, e :: es =>
      match step cfg s e with
      | some s1 => runFrom cfg s1 es
      | none => none

/-- Run a list of events from the mount state. -/
def run (cfg : SyncCfg) (es : List Event) : Option SyncState :=
  runFrom cfg initState es

/-- Number of sockets currently in flight: connecting or open. -/
def liveConnCount (s : SyncState) : Nat :=
  (s.conns.filter fun c => c.status == .connecting || c.status == .opened).length

/-- Whether every socket the session ever created is closed. -/
def allConnsClosed (s : SyncState) : Bool :=
  s.conns.all fun c => c.status == .closed

/-- Counts the connection-failure events of a trace. -/
def isFailureEvt : Event → Bool
  | .wsClosed _ => true
  | _ => false

/-- A run of ten consecutive failed connection attempts with the default
configuration: the mount attempt fails, and each scheduled retry fails in
turn; sockets are numbered in creation order. -/
def allFailTrace10 : List Event :=
  ((List.range 9).flatMap fun k => [Event.wsClosed k, Event.timerFired])
    ++ [Event.wsClosed 9]

/-- The failure run continued to eleven failed attempts: the retry pending
after the tenth failure fires, and that socket fails too. -/
def allFailTrace11 : List Event :=
  allFailTrace10 ++ [Event.timerFired, Event.wsClosed 10]

/-- Event trace reaching two simultaneously live sockets: the mount socket
opens, a manual reconnect closes it and creates socket 1, the stale
onclose of socket 0 then nulls wsRef and schedules a retry, socket 1 opens,
and the retry creates socket 2 while socket 1 is still open. -/
def duplicateLiveTrace : List Event :=
  [Event.wsOpened 0, Event.manualReconnect, Event.wsClosed 0,
   Event.wsOpened 1, Event.timerFired]

/-- Invariant of a single socket: a connecting socket has sent nothing, an
open socket sent get_status first, and on any socket that sent anything the
first message was get_status. -/
def ConnInv (c : Conn) : Prop :=
  (c.status = .connecting → c.sent = [])
  ∧ (c.status = .opened → c.sent.head? = some .get_status)
  ∧ (c.sent ≠ [] → c.sent.head? = some .get_status)

/-- Session invariant: every socket the session ever created satisfies
ConnInv. -/
def StateInv (s : SyncState) : Prop :=
  ∀ c ∈ s.conns, ConnInv c

/-! Lemmas about the association-list object model. -/

theorem objGet_objSet (l : Obj) (k key : String) (v : ℚ) :
    objGet (objSet l k v) key = if k = key then some v else objGet l key := by
  induction l with
  | nil =>
      by_cases h : k = key <;> simp [objSet, objGet, h]
  | cons kv rest ih =>
      obtain ⟨k0, v0⟩ := kv
      by_cases h1 : k0 = k
      · subst h1
        by_cases h2 : k0 = key <;> simp [objSet, objGet, h2]
      · by_cases h2 : k0 = key
        · subst h2
          have hk : ¬ k = k0 := fun h => h1 h.symm
          simp [objSet, objGet, h1, hk]
        · simp [objSet, objGet, h1, h2, ih]

theorem objGet_append (a b : Obj) (key : String) :
    objGet (a ++ b) key = (objGet a key).or (objGet b key) := by
  induction a with
  | nil => simp [objGet]
  | cons kv rest ih =>
      by_cases h : kv.1 = key <;>
        simp [objGet, h, ih]

theorem lastGet_cons (kv : String × ℚ) (rest : Obj) (key : String) :
    lastGet (kv :: rest) key
      = (lastGet rest key).or (if kv.1 = key then some kv.2 else none) := by
  by_cases h : kv.1 = key <;>
    simp [lastGet, List.reverse_cons, objGet_append, objGet, h]

theorem lastGet_eq_none (b : Obj) (key : String) (h : key ∉ b.map Prod.fst) :
    lastGet b key = none := by
  induction b with
  | nil => rfl
  | cons kv rest ih =>
      simp only [List.map_cons, List.mem_cons] at h
      push_neg at h
      rw [lastGet_cons, ih h.2]
      have hne : ¬ kv.1 = key := fun hh => h.1 hh.symm
      simp [hne]

theorem spreadMerge_get (b a : Obj) (key : String) :
    objGet (spreadMerge a b) key = (lastGet b key).or (objGet a key) := by
  induction b generalizing a with
  | nil => simp [spreadMerge, lastGet, objGet]
  | cons kv rest ih =>
      have hstep : spreadMerge a (kv :: rest) = spreadMerge (objSet a kv.1 kv.2) rest := by
        simp [spreadMerge]
      rw [hstep, ih, objGet_objSet, lastGet_cons]
      cases hl : lastGet rest key <;> by_cases h : kv.1 = key <;> simp [h, Option.or]

theorem objSet_self (l : Obj) (k : String) (v : ℚ) (h : objGet l k = some v) :
    objSet l k v = l := by
  induction l with
  | nil => simp [objGet] at h
  | cons kv rest ih =>
      obtain ⟨k0, v0⟩ := kv
      by_cases h0 : k0 = k
      · subst h0
        simp [objGet] at h
        simp [objSet, h]
      · simp [objGet, h0] at h
        simp [objSet, h0, ih h]

theorem spreadMerge_covered (b c : Obj) (h : ∀ kv ∈ b, objGet c kv.1 = some kv.2) :
    spreadMerge c b = c := by
  induction b generalizing c with
  | nil => rfl
  | cons kv rest ih =>
      have hstep : spreadMerge c (kv :: rest) = spreadMerge (objSet c kv.1 kv.2) rest := by
        simp [spreadMerge]
      rw [hstep, objSet_self c kv.1 kv.2 (h kv (List.mem_cons_self kv rest))]
      exact ih c fun kv2 hkv2 => h kv2 (List.mem_cons_of_mem kv hkv2)

theorem lastGet_nodup_mem (b : Obj) (k : String) (v : ℚ)
    (hnd : (b.map Prod.fst).Nodup) (hmem : (k, v) ∈ b) :
    lastGet b k = some v := by
  induction b with
  | nil => simp at hmem
  | cons kv rest ih =>
      simp only [List.map_cons, List.nodup_cons] at hnd
      rcases List.mem_cons.mp hmem with heq | hrest
      · have hnot : k ∉ rest.map Prod.fst := by
          rw [← heq] at hnd; exact hnd.1
        rw [lastGet_cons, lastGet_eq_none rest k hnot, ← heq]
        simp [Option.or]
      · rw [lastGet_cons, ih hnd.2 hrest]
        simp [Option.or]

theorem spreadMerge_idem (a b : Obj) (hnd : (b.map Prod.fst).Nodup) :
    spreadMerge (spreadMerge a b) b = spreadMerge a b := by
  apply spreadMerge_covered
  intro kv hkv
  rw [spreadMerge_get, lastGet_nodup_mem b kv.1 kv.2 hnd hkv]
  simp [Option.or]

/-- Claim C3 (confirmed): applying an inbound parameters or frame message
updates exactly the parameter names present in the message data, giving each
the value of its last occurrence, and leaves the value of every other
parameter unchanged; in particular sending a mouth value of 0.5 after a
message that set eye to 1.0 leaves eye at 1.0 and sets mouth to 0.5. -/
theorem partial_update_semantics :
    (∀ (st : Store) (data : Obj) (key : String),
        objGet ((handleMessage (some (.parameters data)) st).live2dParams) key
          = (lastGet data key).or (objGet st.live2dParams key))
    ∧ (∀ (st : Store) (data : Obj) (key : String) (ts : Nat) (e mo : Option String),
        objGet ((handleMessage (some (.frame ts data e mo)) st).live2dParams) key
          = (lastGet data key).or (objGet st.live2dParams key))
    ∧ objGet ((handleMessage (some (.parameters [("mouth", 1/2)]))
          (handleMessage (some (.parameters [("eye", 1)])) initialStore)).live2dParams) "eye"
        = some 1
    ∧ objGet ((handleMessage (some (.parameters [("mouth", 1/2)]))
          (handleMessage (some (.parameters [("eye", 1)])) initialStore)).live2dParams) "mouth"
        = some (1/2) := by
  refine ⟨?_, ?_, ?_, ?_⟩
  · intro st data key
    simp [handleMessage, handleParsed, setLive2DParams, spreadMerge_get]
  · intro st data key ts e mo
    by_cases h : strTruthy e <;>
      simp [handleMessage, handleParsed, setLive2DParams, setExpressionStore, h,
        spreadMerge_get]
  · rfl
  · rfl

/-- Claim C5 (confirmed): the message handler is a total function on the
store; an unparseable payload takes the catch branch and an unknown type
value takes the default branch, and in both cases the store is left
unchanged while a console line is emitted. -/
theorem malformed_and_unknown_ignored :
    ∀ st : Store,
      handleMessage none st = st
      ∧ handleMessage (some .unknownType) st = st
      ∧ handleMessageLogs none = true
      ∧ handleMessageLogs (some .unknownType) = true := by
  intro st
  exact ⟨rfl, rfl, rfl, rfl⟩

/-- Claim C7 (confirmed): applying the same frame message twice in
succession to the consumer yields the same store parameter state and the
same interpolation target object as applying it once, provided the frame
parameter names are duplicate free, as parsed JSON objects are. -/
theorem duplicate_frame_idempotent :
    ∀ (c : ConsumerState) (ts : Nat) (data : Obj) (e mo : Option String),
      (data.map Prod.fst).Nodup →
      applyFrameMsg (some (.frame ts data e mo))
          (applyFrameMsg (some (.frame ts data e mo)) c)
        = applyFrameMsg (some (.frame ts data e mo)) c := by
  intro c ts data e mo hnd
  have hidem : ∀ a : Obj, spreadMerge (spreadMerge a data) data = spreadMerge a data :=
    fun a => spreadMerge_idem a data hnd
  have key : ∀ st : Store,
      handleParsed (.frame ts data e mo) (handleParsed (.frame ts data e mo) st)
        = handleParsed (.frame ts data e mo) st := by
    intro st
    by_cases h : strTruthy e = true <;>
      simp [handleParsed, setLive2DParams, setExpressionStore, h, hidem]
  simp [applyFrameMsg, handleMessage, key]

/-- Witness for C7: the idempotence theorem applied to a concrete frame on
the initial consumer state. -/
theorem duplicate_frame_idempotent_witness :
    applyFrameMsg (some (.frame 0 [("eye", 1)] (some "happy") none))
        (applyFrameMsg (some (.frame 0 [("eye", 1)] (some "happy") none)) initialConsumer)
      = applyFrameMsg (some (.frame 0 [("eye", 1)] (some "happy") none)) initialConsumer :=
  duplicate_frame_idempotent initialConsumer 0 [("eye", 1)] (some "happy") none (by simp)

/-! Lemmas about the interpolation loop. -/

theorem tickEntry_fst (t : ℚ) (st : Obj × Bool) (kv : String × ℚ) :
    (tickEntry t st kv).1 = objSet st.1 kv.1 (tickValue (objGet st.1 kv.1) kv.2 t) := by
  simp only [tickEntry, tickValue]
  split_ifs <;> rfl

theorem tick_foldl_not_mem (tgt : Obj) (t : ℚ) :
    ∀ (p : Obj × Bool) (key : String), key ∉ tgt.map Prod.fst →
      objGet (tgt.foldl (tickEntry t) p).1 key = objGet p.1 key := by
  induction tgt with
  | nil => intro p key _; rfl
  | cons kv rest ih =>
      intro p key h
      simp only [List.map_cons, List.mem_cons] at h
      push_neg at h
      have hne : ¬ kv.1 = key := fun hh => h.1 hh.symm
      rw [List.foldl_cons, ih (tickEntry t p kv) key h.2, tickEntry_fst,
        objGet_objSet]
      simp [hne]

theorem tick_foldl_get (tgt : Obj) (t : ℚ) :
    ∀ (p : Obj × Bool) (k : String) (v : ℚ),
      (tgt.map Prod.fst).Nodup → (k, v) ∈ tgt →
      objGet (tgt.foldl (tickEntry t) p).1 k = some (tickValue (objGet p.1 k) v t) := by
  induction tgt with
  | nil => intro p k v _ hmem; simp at hmem
  | cons kv rest ih =>
      intro p k v hnd hmem
      simp only [List.map_cons, List.nodup_cons] at hnd
      rcases List.mem_cons.mp hmem with heq | hrest
      · have hk : k ∉ rest.map Prod.fst := by rw [← heq] at hnd; exact hnd.1
        rw [List.foldl_cons, tick_foldl_not_mem rest t (tickEntry t p kv) k hk,
          tickEntry_fst, objGet_objSet, ← heq]
        simp
      · have hk : k ≠ kv.1 := by
          intro hh
          apply hnd.1
          rw [hh] at hrest
          exact List.mem_map.mpr ⟨(kv.1, v), hrest, rfl⟩
        have hacc : objGet (tickEntry t p kv).1 k = objGet p.1 k := by
          rw [tickEntry_fst, objGet_objSet]
          have hne : ¬ kv.1 = k := fun hh => hk hh.symm
          simp [hne]
        rw [List.foldl_cons, ih (tickEntry t p kv) k v hnd.2 hrest, hacc]

theorem objSet_ne_nil (l : Obj) (k : String) (v : ℚ) : objSet l k v ≠ [] := by
  cases l with
  | nil => simp [objSet]
  | cons kv rest =>
      simp only [objSet]
      split_ifs <;> simp

theorem tick_foldl_ne_nil (tgt : Obj) (t : ℚ) :
    ∀ p : Obj × Bool, (p.1 ≠ [] ∨ tgt ≠ []) → (tgt.foldl (tickEntry t) p).1 ≠ [] := by
  induction tgt with
  | nil =>
      intro p h
      rcases h with h | h
      · exact h
      · exact absurd rfl h
  | cons kv rest ih =>
      intro p _
      rw [List.foldl_cons]
      refine ih (tickEntry t p kv) (Or.inl ?_)
      rw [tickEntry_fst]
      exact objSet_ne_nil _ _ _

/-- Claim C4 (confirmed): on an interpolation tick, every parameter with a
pending target is advanced toward the target by the convergence factor
t given as the minimum of 1 and smoothing times elapsed over 16.67, that is
the new current value is current plus (target minus current) times t, except
that whenever the current value is within the epsilon 0.001 of the target it
is set exactly to the target; a parameter with no current value starts at
the target and therefore snaps to it. -/
theorem interpolation_tick_formula :
    ∀ (cur tgt : Obj) (smoothing delta : ℚ) (k : String) (v : ℚ),
      (tgt.map Prod.fst).Nodup → (k, v) ∈ tgt →
      objGet (animationLoopTick cur tgt smoothing delta).1 k
        = some (tickValue (objGet cur k) v
            (min 1 (smoothing * (delta / (1667 / 100))))) := by
  intro cur tgt smoothing delta k v hnd hmem
  simp only [animationLoopTick]
  exact tick_foldl_get tgt _ (cur, false) k v hnd hmem

/-- Witness for C4: one tick with smoothing 1 and elapsed 16.67 ms carries a
parameter from 0 all the way to its target 1, since t evaluates to 1. -/
theorem interpolation_tick_formula_witness :
    objGet (animationLoopTick [("m", 0)] [("m", 1)] 1 (1667 / 100)).1 "m" = some 1 :=
  (interpolation_tick_formula [("m", 0)] [("m", 1)] 1 (1667 / 100) "m" 1
      (by simp) (by simp)).trans
    (by norm_num [tickValue, objGet])

/-- Claim C9 counterexample: a tick on which no value changed and the only
held value is zero still calls applyParams with the full held object; the
claim as stated says nothing is written in this situation. -/
theorem tick_write_counterexample :
    (animationLoopTick [("eye", 0)] [("eye", 0)] 1 (1667 / 100)).2.1 = false
    ∧ (∀ kv ∈ (animationLoopTick [("eye", 0)] [("eye", 0)] 1 (1667 / 100)).1, kv.2 = 0)
    ∧ (animationLoopTick [("eye", 0)] [("eye", 0)] 1 (1667 / 100)).2.2
        = some [("eye", 0)] := by
  refine ⟨?_, ?_, ?_⟩ <;>
    norm_num [animationLoopTick, tickEntry, objGet, objSet]

/-- Claim C9 as amended (proved): after updating the current values, the
tick passes the whole held object to the renderer parameter-set path
whenever some value changed or at least one parameter is held, regardless
of whether the held values are zero; nothing is written exactly when no
value changed and no parameter is held, and the held object is nonempty as
soon as the previous current object or the target object is. -/
theorem tick_write_amended :
    ∀ (cur tgt : Obj) (smoothing delta : ℚ),
      ((animationLoopTick cur tgt smoothing delta).2.2 = none ↔
        ((animationLoopTick cur tgt smoothing delta).2.1 = false
          ∧ (animationLoopTick cur tgt smoothing delta).1 = []))
      ∧ (∀ w, (animationLoopTick cur tgt smoothing delta).2.2 = some w →
          w = (animationLoopTick cur tgt smoothing delta).1)
      ∧ ((cur ≠ [] ∨ tgt ≠ []) →
          (animationLoopTick cur tgt smoothing delta).2.2 ≠ none) := by
  intro cur tgt smoothing delta
  simp only [animationLoopTick]
  set r := tgt.foldl (tickEntry (min 1 (smoothing * (delta / (1667 / 100))))) (cur, false)
    with hr
  refine ⟨?_, ?_, ?_⟩
  · cases hb : r.2 <;> cases hl : r.1 <;> simp [hb, hl]
  · intro w
    cases hb : r.2 <;> cases hl : r.1 <;> simp [hb, hl] <;> intro hw <;> simp [hw]
  · intro hne
    have h1 : r.1 ≠ [] := by
      rw [hr]
      exact tick_foldl_ne_nil tgt _ (cur, false) hne
    cases hl : r.1 with
    | nil => exact absurd hl h1
    | cons x xs => cases hb : r.2 <;> simp [hb, hl]

/-- Witness for C9 amended: a tick whose target object is nonempty writes
something. -/
theorem tick_write_amended_witness :
    (animationLoopTick [] [("m", 1)] 1 (1667 / 100)).2.2 ≠ none :=
  (tick_write_amended [] [("m", 1)] 1 (1667 / 100)).2.2 (Or.inr (by simp))

/-! Lemmas about the transport state machine. -/

theorem mem_of_getElemOpt {α : Type} :
    ∀ (l : List α) (i : Nat) (a : α), l[i]? = some a → a ∈ l := by
  intro l
  induction l with
  | nil => intro i a h; simp at h
  | cons x xs ih =>
      intro i a h
      cases i with
      | zero => simp at h; simp [h]
      | succ n =>
          simp only [List.getElem?_cons_succ] at h
          exact List.mem_cons_of_mem x (ih n a h)

theorem stateInv_set (s : SyncState) (i : Nat) (c1 : Conn)
    (hs : StateInv s) (hc : ConnInv c1) :
    ∀ c ∈ s.conns.set i c1, ConnInv c := by
  intro c hmem
  rcases List.mem_or_eq_of_mem_set hmem with h | h
  · exact hs c h
  · rw [h]; exact hc

theorem connInv_fresh : ConnInv { status := .connecting, sent := [] } := by
  simp [ConnInv]

theorem stateInv_connect (s : SyncState) (hs : StateInv s) : StateInv (connect s) := by
  unfold connect
  split_ifs with h
  · exact hs
  · intro c hmem
    rcases List.mem_append.mp hmem with h1 | h1
    · exact hs c h1
    · rw [List.mem_singleton.mp h1]
      exact connInv_fresh

theorem stateInv_onOpen (s : SyncState) (i : Nat) (c : Conn)
    (hs : StateInv s) (hget : s.conns[i]? = some c) (hst : c.status = .connecting) :
    StateInv (onOpen s i) := by
  have hmem0 : c ∈ s.conns := mem_of_getElemOpt s.conns i c hget
  have hsent : c.sent = [] := (hs c hmem0).1 hst
  have hc1 : ConnInv { c with status := .opened, sent := c.sent ++ [.get_status] } := by
    rw [hsent]
    simp [ConnInv]
  simp only [onOpen, hget]
  intro c2 hmem
  exact stateInv_set s i _ hs hc1 c2 hmem

theorem stateInv_onClose (cfg : SyncCfg) (s : SyncState) (i : Nat)
    (hs : StateInv s) : StateInv (onClose cfg s i) := by
  cases hget : s.conns[i]? with
  | none => simp only [onClose, hget]; exact hs
  | some c =>
      have hmem0 : c ∈ s.conns := mem_of_getElemOpt s.conns i c hget
      have hc1 : ConnInv { c with status := .closed } :=
        ⟨fun h => ConnStatus.noConfusion h, fun h => ConnStatus.noConfusion h,
          (hs c hmem0).2.2⟩
      simp only [onClose, hget]
      split_ifs with hgrd <;>
        · intro c2 hmem
          exact stateInv_set s i _ hs hc1 c2 hmem

theorem stateInv_closeCurrent (s : SyncState) (hs : StateInv s) :
    StateInv (closeCurrent s) := by
  cases href : s.wsRef with
  | none => simp only [closeCurrent, href]; exact hs
  | some i =>
      cases hget : s.conns[i]? with
      | none => simp only [closeCurrent, href, hget]; exact hs
      | some c =>
          have hmem0 : c ∈ s.conns := mem_of_getElemOpt s.conns i c hget
          have hc1 : ConnInv { c with status := .closing } :=
            ⟨fun h => ConnStatus.noConfusion h, fun h => ConnStatus.noConfusion h,
              (hs c hmem0).2.2⟩
          simp only [closeCurrent, href, hget]
          split_ifs with hgrd
          · intro c2 hmem
            exact stateInv_set s i _ hs hc1 c2 hmem
          · exact hs

theorem stateInv_sendAction (a : Action) (s : SyncState) (hs : StateInv s) :
    StateInv (sendAction a s) := by
  cases href : s.wsRef with
  | none => simp only [sendAction, href]; exact hs
  | some i =>
      cases hget : s.conns[i]? with
      | none => simp only [sendAction, href, hget]; exact hs
      | some c =>
          have hmem0 : c ∈ s.conns := mem_of_getElemOpt s.conns i c hget
          simp only [sendAction, href, hget]
          split_ifs with hst
          · have hh : c.sent.head? = some .get_status := (hs c hmem0).2.1 hst
            have happ : (c.sent ++ [a]).head? = some Action.get_status := by
              cases hs2 : c.sent with
              | nil => rw [hs2] at hh; simp at hh
              | cons x xs => rw [hs2] at hh; simpa using hh
            have hc1 : ConnInv { c with sent := c.sent ++ [a] } := by
              refine ⟨fun h => ?_, fun _ => happ, fun _ => happ⟩
              rw [hst] at h
              exact ConnStatus.noConfusion h
            intro c2 hmem
            exact stateInv_set s i _ hs hc1 c2 hmem
          · exact hs

theorem stateInv_reconnect (s : SyncState) (hs : StateInv s) :
    StateInv (reconnect s) := by
  unfold reconnect
  apply stateInv_connect
  apply stateInv_closeCurrent
  exact hs

theorem stateInv_step (cfg : SyncCfg) (s s1 : SyncState) (e : Event)
    (hs : StateInv s) (h : step cfg s e = some s1) : StateInv s1 := by
  cases e with
  | wsOpened i =>
      simp only [step] at h
      cases hget : s.conns[i]? with
      | none => simp [hget] at h
      | some c =>
          simp only [hget] at h
          split_ifs at h with hst
          cases h
          exact stateInv_onOpen s i c hs hget hst
  | wsClosed i =>
      simp only [step] at h
      cases hget : s.conns[i]? with
      | none => simp [hget] at h
      | some c =>
          simp only [hget] at h
          split_ifs at h with hst
          cases h
          exact stateInv_onClose cfg s i hs
  | timerFired =>
      simp only [step] at h
      cases htm : s.reconnectTimeout with
      | none => simp [htm] at h
      | some d =>
          simp only [htm] at h
          cases h
          exact stateInv_connect _ hs
  | manualReconnect =>
      simp only [step] at h
      cases h
      exact stateInv_reconnect s hs
  | sendEvt a =>
      simp only [step] at h
      cases h
      exact stateInv_sendAction a s hs

theorem stateInv_runFrom (cfg : SyncCfg) :
    ∀ (es : List Event) (s s1 : SyncState), StateInv s →
      runFrom cfg s es = some s1 → StateInv s1 := by
  intro es
  induction es with
  | nil =>
      intro s s1 hs h
      simp only [runFrom] at h
      cases h
      exact hs
  | cons e rest ih =>
      intro s s1 hs h
      simp only [runFrom] at h
      cases hstep : step cfg s e with
      | none => rw [hstep] at h; simp at h
      | some s2 =>
          rw [hstep] at h
          exact ih s2 s1 (stateInv_step cfg s s2 e hs hstep) h

theorem stateInv_init : StateInv initState := by
  intro c hmem
  simp [initState, connect, currentIsOpen, currentConn] at hmem
  rw [hmem]
  exact connInv_fresh

/-- Claim C8 (confirmed): in every state reachable by any event trace, any
socket that reached the open state has get_status as the first message ever
sent on it, and more generally the first message sent on any socket of the
session is get_status; the onopen handler sends it before any sendAction
can run on that socket. -/
theorem get_status_first_on_open :
    ∀ (cfg : SyncCfg) (es : List Event) (s : SyncState), run cfg es = some s →
      ∀ c ∈ s.conns,
        (c.status = .opened → c.sent.head? = some .get_status)
        ∧ (c.sent ≠ [] → c.sent.head? = some .get_status) := by
  intro cfg es s h c hmem
  have hinv : StateInv s := stateInv_runFrom cfg es initState s stateInv_init h
  exact ⟨(hinv c hmem).2.1, (hinv c hmem).2.2⟩

/-- Witness for C8: running the trace in which the mount socket opens
yields a session whose only socket has sent exactly get_status first. -/
theorem get_status_first_on_open_witness :
    (Conn.mk .opened [Action.get_status]).sent.head? = some Action.get_status :=
  ((get_status_first_on_open defaultCfg [Event.wsOpened 0]
      ⟨[⟨.opened, [.get_status]⟩], some 0, none, 0, true⟩ (by decide))
    ⟨.opened, [.get_status]⟩ (by decide)).1 (by decide)

/-- Claim C10 (confirmed): sending an action while the current socket is
not open is a silent no-op that transmits nothing and leaves the whole
session state unchanged, and a message is transmitted, appended to the
current socket, exactly when the socket is in the open state. -/
theorem send_requires_open :
    ∀ (s : SyncState) (a : Action),
      (currentIsOpen s = false → sendAction a s = s)
      ∧ (currentIsOpen s = true → sendAction a s ≠ s)
      ∧ (∀ i c, s.wsRef = some i → s.conns[i]? = some c → c.status = .opened →
          sendAction a s
            = { s with conns := s.conns.set i { c with sent := c.sent ++ [a] } }) := by
  intro s a
  refine ⟨?_, ?_, ?_⟩
  · intro hop
    cases href : s.wsRef with
    | none => simp [sendAction, href]
    | some i =>
        cases hget : s.conns[i]? with
        | none => simp [sendAction, href, hget]
        | some c =>
            have hst : ¬ c.status = .opened := by
              intro hh
              simp [currentIsOpen, currentConn, href, hget, hh] at hop
            simp [sendAction, href, hget, hst]
  · intro hop heq
    obtain ⟨i, href⟩ : ∃ i, s.wsRef = some i := by
      cases href : s.wsRef with
      | none => simp [currentIsOpen, currentConn, href] at hop
      | some i => exact ⟨i, rfl⟩
    obtain ⟨c, hget⟩ : ∃ c, s.conns[i]? = some c := by
      cases hget : s.conns[i]? with
      | none => simp [currentIsOpen, currentConn, href, hget] at hop
      | some c => exact ⟨c, rfl⟩
    have hst : c.status = .opened := by
      simp [currentIsOpen, currentConn, href, hget] at hop
      exact hop
    have hsend : sendAction a s
        = { s with conns := s.conns.set i { c with sent := c.sent ++ [a] } } := by
      simp [sendAction, href, hget, hst]
    rw [hsend] at heq
    have hconns : s.conns.set i { c with sent := c.sent ++ [a] } = s.conns :=
      congrArg SyncState.conns heq
    have hlen : i < s.conns.length := (List.getElem?_eq_some.mp hget).1
    have h1 : (s.conns.set i { c with sent := c.sent ++ [a] })[i]?
        = some { c with sent := c.sent ++ [a] } := by
      simp [List.getElem?_set_self, hlen]
    rw [hconns, hget] at h1
    have h2 : c = { c with sent := c.sent ++ [a] } := Option.some.inj h1
    have h3 : c.sent = c.sent ++ [a] := congrArg Conn.sent h2
    have h4 : c.sent.length = c.sent.length + 1 := by
      conv_lhs => rw [h3]
      simp
    omega
  · intro i c href hget hst
    simp [sendAction, href, hget, hst]

/-- Witness for C10: sending on the freshly mounted session, whose socket
is still connecting, changes nothing; sending on an open socket appends
exactly the action. -/
theorem send_requires_open_witness :
    sendAction .stop initState = initState
    ∧ sendAction (.play_motion "wave")
        ⟨[⟨.opened, [.get_status]⟩], some 0, none, 0, true⟩
      = ⟨[⟨.opened, [.get_status, .play_motion "wave"]⟩], some 0, none, 0, true⟩ := by
  constructor
  · exact (send_requires_open initState .stop).1 (by decide)
  · exact ((send_requires_open ⟨[⟨.opened, [.get_status]⟩], some 0, none, 0, true⟩
        (.play_motion "wave")).2.2 0 ⟨.opened, [.get_status]⟩ rfl (by decide)
        (by decide)).trans (by decide)

/-- Claim C1 counterexample: with the default configuration, after exactly
ten consecutive failed connection attempts with no intervening open, a
retry timer of 3000 ms is still pending with the attempt counter at the
maximum 10, and when it fires the session constructs an eleventh socket,
so the session does attempt a further automatic connection. -/
theorem reconnect_bound_counterexample :
    (allFailTrace10.filter isFailureEvt).length = 10
    ∧ ((run defaultCfg allFailTrace10).map fun s =>
        (s.reconnectTimeout, s.reconnectAttempts)) = some (some 3000, 10)
    ∧ (((run defaultCfg allFailTrace10).bind fun s =>
          step defaultCfg s .timerFired).map
        fun s => (s.conns.length, s.wsRef, s.conns.getLast?.map Conn.status))
      = some (11, some 10, some ConnStatus.connecting) := by
  refine ⟨by decide, by decide, by decide⟩

/-- Claim C1 as amended (proved): the session stops after eleven
consecutive failed attempts, the initial attempt plus the maximum of ten
scheduled retries: the all-failure run of eleven attempts ends with no
pending timer, the counter capped at 10 and every socket closed, and from
any such quiescent state no automatic event is enabled; moreover a failure
increments the counter by 1 and schedules a 3000 ms retry exactly when the
counter before the failure is strictly below the maximum, and a failure at
the maximum leaves counter and timer unchanged. -/
theorem reconnect_bound_amended :
    ((run defaultCfg allFailTrace11).map fun s =>
        (s.reconnectTimeout, s.reconnectAttempts, allConnsClosed s))
      = some (none, 10, true)
    ∧ (∀ s : SyncState, allConnsClosed s = true → s.reconnectTimeout = none →
        step defaultCfg s .timerFired = none
        ∧ (∀ i, step defaultCfg s (.wsClosed i) = none)
        ∧ (∀ i, step defaultCfg s (.wsOpened i) = none))
    ∧ (∀ (s : SyncState) (i : Nat) (c : Conn), s.conns[i]? = some c →
        ((s.reconnectAttempts < defaultCfg.maxReconnectAttempts →
            (onClose defaultCfg s i).reconnectAttempts = s.reconnectAttempts + 1
            ∧ (onClose defaultCfg s i).reconnectTimeout
                = some defaultCfg.reconnectInterval)
        ∧ (defaultCfg.maxReconnectAttempts ≤ s.reconnectAttempts →
            (onClose defaultCfg s i).reconnectAttempts = s.reconnectAttempts
            ∧ (onClose defaultCfg s i).reconnectTimeout = s.reconnectTimeout))) := by
  refine ⟨by decide, ?_, ?_⟩
  · intro s hall htm
    have hcl : ∀ c ∈ s.conns, c.status = .closed := by
      intro c hmem
      have := List.all_eq_true.mp hall c hmem
      simpa using this
    refine ⟨by simp [step, htm], ?_, ?_⟩
    · intro i
      cases hget : s.conns[i]? with
      | none => simp [step, hget]
      | some c =>
          have hc := hcl c (mem_of_getElemOpt s.conns i c hget)
          simp [step, hget, hc]
    · intro i
      cases hget : s.conns[i]? with
      | none => simp [step, hget]
      | some c =>
          have hc := hcl c (mem_of_getElemOpt s.conns i c hget)
          simp [step, hget, hc]
  · intro s i c hget
    constructor
    · intro hlt
      have hlt10 : s.reconnectAttempts < 10 := hlt
      simp [onClose, hget, defaultCfg, hlt10]
    · intro hge
      have hnlt : ¬ s.reconnectAttempts < 10 := by
        have : (10 : Nat) ≤ s.reconnectAttempts := hge
        omega
      simp [onClose, hget, defaultCfg, hnlt]

/-- Witness for C1 amended: in a quiescent state with the counter at the
maximum the timer event is disabled, and a close landing with the counter
already at the maximum schedules no retry. -/
theorem reconnect_bound_amended_witness :
    step defaultCfg ⟨[⟨.closed, []⟩], none, none, 10, false⟩ .timerFired = none
    ∧ (onClose defaultCfg ⟨[⟨.connecting, []⟩], some 0, none, 10, false⟩
        0).reconnectTimeout = none := by
  constructor
  · exact (reconnect_bound_amended.2.1 ⟨[⟨.closed, []⟩], none, none, 10, false⟩
      (by decide) rfl).1
  · exact ((reconnect_bound_amended.2.2 ⟨[⟨.connecting, []⟩], some 0, none, 10, false⟩
      0 ⟨.connecting, []⟩ (by decide)).2 (by decide)).2

/-- Claim C2 (code bug): immediately after a manual reconnect the pending
timer is cleared, the counter is reset to 0 and the old socket was moved to
closing before socket 1 was created, exactly as the claim describes the
reconnect operation; but continuing the same run, the stale onclose of the
superseded socket nulls wsRef and schedules a retry, so after socket 1
opens and the retry fires the session holds one open and one connecting
socket at once, violating the at-most-one-live-connection invariant. -/
theorem manual_reconnect_duplicate_live :
    ((run defaultCfg [Event.wsOpened 0, Event.manualReconnect]).map fun s =>
        (s.reconnectTimeout, s.reconnectAttempts, s.conns.map Conn.status))
      = some (none, 0, [ConnStatus.closing, ConnStatus.connecting])
    ∧ ((run defaultCfg duplicateLiveTrace).map fun s =>
        (liveConnCount s, s.conns.map Conn.status))
      = some (2, [ConnStatus.closed, ConnStatus.opened, ConnStatus.connecting]) := by
  refine ⟨by decide, by decide⟩

/-- Claim C6 (confirmed): whenever the motion effect actually dispatches a
named motion to the renderer motion API, the completion callback is
invoked, both when the motion resolves and when it fails and the catch
branch runs, so a caller waiting on completion never hangs. -/
theorem motion_completion_always_signaled :
    ∀ (mp : Option String) (ml : Bool) (api : Option (String → MotionOutcome)),
      (motionEffect mp ml api).dispatched = true →
      (motionEffect mp ml api).completionInvoked = true := by
  intro mp ml api h
  unfold motionEffect at h ⊢
  split_ifs at h ⊢ with h1
  cases api with
  | none => simp at h
  | some f => cases hf : f (mp.getD "") <;> simp [hf]

/-- Witness for C6: a motion whose renderer call rejects still signals
completion. -/
theorem motion_completion_always_signaled_witness :
    (motionEffect (some "idle") true
        (some fun _ => MotionOutcome.rejected)).completionInvoked = true :=
  motion_completion_always_signaled (some "idle") true
    (some fun _ => MotionOutcome.rejected) (by rfl)

end Lobby
